import Mathlib

/-!
Shallow embedding of the `TaskPool` class (current version of the source
file, the one with `chunkResultPool`, `autoSchedule` and the settlement
`finally` handler).

Modelling conventions:
* Task bodies are opaque asynchronous computations: dispatching a task
  records a running proxy and adds it to `pending`; its eventual outcome
  (fulfilment or rejection, with an abstract numeric payload) is chosen by
  the environment when the corresponding `settle` event fires.
* Each settlement runs its `.then`/`.catch` handler followed by the
  `.finally` handler as one atomic step, matching the single-threaded
  event-loop execution of the handlers.
* Proxy objects get a unique `id` (allocation order) so that the per-object
  `deleted` flag — shared in the source between the `runningPool` entry and
  the settlement closure — can be represented by the set `deletedIds`.
* The constructor closure captures the `immediately` and `executor`
  parameters; `executorFn` reads those captured values (`ctorImmediately`,
  `hasExecutor`), while the public field `immediately` is a separate state
  component written by `setImmediately`.
* Callback invocations (task starts, result callback, submit, cleanup,
  error logging) are recorded in an event trace.  Callbacks other than
  `submit` are assumed not to throw; a synchronous throw of `submit` is an
  explicit parameter of the settlement event because it changes state
  (it aborts the rest of the `finally` handler).
* JS `Array.prototype.sort` with comparator `(a, b) => a.seq - b.seq` is a
  stable in-place sort by `seq`; it is modelled by `List.insertionSort` on
  the `seqLe` relation, and the in-place mutation is reflected by storing
  the sorted list back into the pool field.
-/

namespace TaskPool

/-- Settlement status of a task, as stored in a result record. -/
inductive Status where
  | success
  | error
deriving Repr, DecidableEq

/-- Result Record `{seq, result, status}`; result/error payloads are
abstracted as naturals. -/
structure Rec where
  seq : Nat
  result : Nat
  status : Status
deriving Repr, DecidableEq

/-- A task accepted by the pool: `seq` plus its original arguments and
whether a `handleDelete` cleanup callback is attached. -/
structure STask where
  seq : Nat
  args : List Nat
  hasCleanup : Bool
deriving Repr, DecidableEq

/-- A running proxy `{ body, args, seq, deleted }`: the source builds it
from the dequeued task WITHOUT copying `handleDelete`.  `id` models JS
object identity; the `deleted` flag lives in `TP.deletedIds`. -/
structure Proxy where
  id : Nat
  seq : Nat
  args : List Nat
deriving Repr, DecidableEq

/-- A task given to `addTask` or to the constructor (before a seq is
assigned). -/
structure NewTask where
  args : List Nat
  hasCleanup : Bool
deriving Repr, DecidableEq

/-- Outcome of a task body chosen by the environment at settlement time. -/
inductive Outcome where
  | success (v : Nat)
  | error (e : Nat)
deriving Repr, DecidableEq

/-- Observable events: task body invocations, result-callback calls
(`execCall results crtResult crtIndex isError`), submit calls, cleanup
calls, and the `console.error` log. -/
inductive Ev where
  | bodyStart (seq : Nat) (args : List Nat)
  | execCall (results : List Rec) (crt : Option Nat) (seq : Option Nat) (isError : Bool)
  | submitCall (results : List Rec)
  | cleanupCall (seq : Nat) (args : List Nat)
  | logError (seq : Nat)
deriving Repr, DecidableEq

/-- Full scheduler state of a `TaskPool` instance plus the in-flight
settlement continuations (`pending`) and the per-proxy deleted flags
(`deletedIds`). -/
structure TP where
  index : Nat
  nextId : Nat
  concurrency : Int
  allTasks : List STask
  runningPool : List Proxy
  maintainOrder : Bool
  resultPool : List Rec
  chunkResultPool : List Rec
  restPool : List STask
  isRunning : Bool
  paused : Bool
  immediately : Bool
  ctorImmediately : Bool
  hasExecutor : Bool
  autoSubmit : Bool
  hasSubmit : Bool
  autoSchedule : Bool
  deletedIds : List Nat
  pending : List Proxy
deriving Repr, DecidableEq

/-- Constructor arguments. -/
structure Cfg where
  taskPool : List NewTask
  hasExecutor : Bool
  concurrency : Int
  maintainOrder : Bool
  immediately : Bool
  autoSubmit : Bool
  hasSubmit : Bool
deriving Repr, DecidableEq

/-- Ordering used by the comparator `(a, b) => a.seq - b.seq`. -/
def seqLe (a b : Rec) : Prop := a.seq ≤ b.seq

instance : DecidableRel seqLe := fun a b => Nat.decLe a.seq b.seq

instance : IsTotal Rec seqLe := ⟨fun a b => Nat.le_total a.seq b.seq⟩

instance : IsTrans Rec seqLe := ⟨fun _ _ _ h h2 => Nat.le_trans h h2⟩

/-- Stable sort by `seq`, the model of
`pool.sort((a, b) => a.seq - b.seq)`. -/
def sortBySeq (l : List Rec) : List Rec := List.insertionSort seqLe l

/-- Result Record created by the `.then` / `.catch` handler. -/
def recOf (seq : Nat) : Outcome → Rec
  | Outcome.success v => ⟨seq, v, Status.success⟩
  | Outcome.error e => ⟨seq, e, Status.error⟩

/-- Seq assignment `taskPool.map(m => ({ ...m, seq: this.index++ }))`. -/
def withSeqs : Nat → List NewTask → List STask
  | _, [] => []
  | i, t :: ts => ⟨i, t.args, t.hasCleanup⟩ :: withSeqs (i + 1) ts

/-- Constructor: assigns seqs, copies the task list into `restPool`
(`this.allTasks.slice()`), initialises flags; `autoSchedule` defaults to
`true`. -/
def init (c : Cfg) : TP :=
  { index := c.taskPool.length
    nextId := 0
    concurrency := c.concurrency
    allTasks := withSeqs 0 c.taskPool
    runningPool := []
    maintainOrder := c.maintainOrder
    resultPool := []
    chunkResultPool := []
    restPool := withSeqs 0 c.taskPool
    isRunning := false
    paused := false
    immediately := c.immediately
    ctorImmediately := c.immediately
    hasExecutor := c.hasExecutor
    autoSubmit := c.autoSubmit
    hasSubmit := c.hasSubmit
    autoSchedule := true
    deletedIds := []
    pending := [] }

/-- One dequeue of the dispatch loop: wrap the task as a proxy
`{ body, args, seq, deleted: false }`, push it to `runningPool` and start
its body (the body joins `pending` until it settles). -/
def spawn (s : TP) (t : STask) : TP :=
  { s with
    nextId := s.nextId + 1
    runningPool := s.runningPool ++ [⟨s.nextId, t.seq, t.args⟩]
    pending := s.pending ++ [⟨s.nextId, t.seq, t.args⟩] }

/-- Dispatch loop of `executorFn`:
`while (restPool.length && runningPool.length < concurrency)` pop the head
of `restPool`, wrap it as a proxy, push it to `runningPool`, start its body
(recorded as a `bodyStart` event plus a `pending` entry). -/
def dispatchGo : List STask → TP → TP × List Ev
  | [], s => ({ s with restPool := [] }, [])
  | t :: ts, s =>
    if (s.runningPool.length : Int) < s.concurrency then
      ((dispatchGo ts (spawn s t)).1, Ev.bodyStart t.seq t.args :: (dispatchGo ts (spawn s t)).2)
    else ({ s with restPool := t :: ts }, [])

/-- The scheduling pass `executorFn`: returns immediately when paused,
otherwise runs the dispatch loop.  In the current source version there is
no drain check here — drain evaluation lives in the settlement `finally`
handler. -/
def executorFn (s : TP) : TP × List Ev :=
  if s.paused then (s, []) else dispatchGo s.restPool { s with restPool := [] }

/-- Appending of the Result Record to `resultPool` and
`chunkResultPool`. -/
def record (s : TP) (p : Proxy) (out : Outcome) : TP :=
  { s with
    resultPool := s.resultPool ++ [recOf p.seq out]
    chunkResultPool := s.chunkResultPool ++ [recOf p.seq out] }

/-- Removal of a settled proxy from `runningPool`
(`runningPool.filter(f => f.seq !== proxyTask.seq)`). -/
def removeRunning (s : TP) (p : Proxy) : TP :=
  { s with runningPool := s.runningPool.filter (fun q => q.seq != p.seq) }

/-- The `.then` / `.catch` handler of a settlement: if the proxy is not
marked deleted, push the Result Record into `resultPool` and
`chunkResultPool`, optionally invoke the captured result callback
per-completion, remove the proxy from `runningPool` by seq, and recurse
into `executorFn` to backfill the slot.  If the proxy is deleted, do
nothing. -/
def settleBody (s : TP) (p : Proxy) (out : Outcome) : TP × List Ev :=
  if s.deletedIds.contains p.id then (s, [])
  else
    match out with
    | Outcome.success v =>
      ((executorFn (removeRunning (record s p (Outcome.success v)) p)).1,
        (if s.ctorImmediately ∧ s.hasExecutor then
          [Ev.execCall (s.resultPool ++ [recOf p.seq (Outcome.success v)]) (some v) (some p.seq)
            false]
        else []) ++ (executorFn (removeRunning (record s p (Outcome.success v)) p)).2)
    | Outcome.error e =>
      ((executorFn (removeRunning (record s p (Outcome.error e)) p)).1,
        (if s.ctorImmediately ∧ s.hasExecutor then
          [Ev.execCall (s.resultPool ++ [recOf p.seq (Outcome.error e)]) none (some p.seq) true]
        else []) ++ (Ev.logError p.seq :: (executorFn (removeRunning (record s p (Outcome.error e)) p)).2))

/-- First half of the drain evaluation in the `finally` handler: when the
captured `immediately` is false, the captured `executor` exists and
`resultPool` is non-empty, deliver the (in-place seq-sorted when
`maintainOrder`) `resultPool` to the result callback. -/
def drainExec (s : TP) : TP × List Ev :=
  if ¬s.ctorImmediately ∧ s.hasExecutor ∧ 0 < s.resultPool.length then
    ({ s with resultPool := if s.maintainOrder then sortBySeq s.resultPool else s.resultPool },
      [Ev.execCall (if s.maintainOrder then sortBySeq s.resultPool else s.resultPool)
        none none false])
  else (s, [])

/-- Second half of the drain evaluation: when `autoSubmit` and a submit
callback are set and the chunk is non-empty, call submit with the
(in-place seq-sorted when `maintainOrder`) chunk; a synchronous throw of
`submit` aborts the rest of the handler, otherwise the chunk is cleared.
`isRunning` is reset on every non-throwing path. -/
def drainSubmit (s : TP) (submitThrows : Bool) : TP × List Ev :=
  if s.autoSubmit ∧ s.hasSubmit ∧ 0 < s.chunkResultPool.length then
    if submitThrows then
      ({ s with
          chunkResultPool :=
            if s.maintainOrder then sortBySeq s.chunkResultPool else s.chunkResultPool },
        [Ev.submitCall
          (if s.maintainOrder then sortBySeq s.chunkResultPool else s.chunkResultPool)])
    else
      ({ s with chunkResultPool := [], isRunning := false },
        [Ev.submitCall
          (if s.maintainOrder then sortBySeq s.chunkResultPool else s.chunkResultPool)])
  else ({ s with isRunning := false }, [])

/-- The `finally` handler of a settlement: when both `restPool` and
`runningPool` are empty, run the drain evaluation. -/
def drainCheck (s : TP) (submitThrows : Bool) : TP × List Ev :=
  if s.restPool.isEmpty ∧ s.runningPool.isEmpty then
    ((drainSubmit (drainExec s).1 submitThrows).1,
      (drainExec s).2 ++ (drainSubmit (drainExec s).1 submitThrows).2)
  else (s, [])

/-- Removal of a settled proxy from the in-flight set (a promise settles
only once). -/
def dropPending (s : TP) (pid : Nat) : TP :=
  { s with pending := s.pending.filter (fun q => q.id != pid) }

/-- Settlement event for the pending proxy with object identity `pid`:
the promise settles once (the proxy leaves `pending`), then the
`.then`/`.catch` handler and the `finally` handler run. -/
def settle (s : TP) (pid : Nat) (out : Outcome) (submitThrows : Bool) : TP × List Ev :=
  match s.pending.find? (fun p => p.id == pid) with
  | none => (s, [])
  | some p =>
    ((drainCheck (settleBody (dropPending s pid) p out).1 submitThrows).1,
      (settleBody (dropPending s pid) p out).2 ++
        (drainCheck (settleBody (dropPending s pid) p out).1 submitThrows).2)

/-- Method `start()`: no-op when `isRunning`, otherwise set `isRunning`
and run a pass. -/
def start (s : TP) : TP × List Ev :=
  if s.isRunning then (s, []) else executorFn { s with isRunning := true }

/-- Method `stop()`: clears `restPool` and `runningPool`, resets the
running and paused flags.  In-flight proxies stay in `pending` and their
deleted flags are untouched. -/
def stop (s : TP) : TP :=
  { s with restPool := [], runningPool := [], isRunning := false, paused := false }

/-- Method `reset()`: clears the seq counter and every pool. -/
def reset (s : TP) : TP :=
  { s with
    index := 0
    allTasks := []
    runningPool := []
    resultPool := []
    chunkResultPool := []
    restPool := []
    isRunning := false
    paused := false }

/-- Method `setConcurrency(n)`. -/
def setConcurrency (s : TP) (n : Int) : TP := { s with concurrency := n }

/-- Method `pause()`. -/
def pause (s : TP) : TP := { s with paused := true }

/-- Clearing of the pause flag at the start of `resume()`. -/
def unpause (s : TP) : TP := { s with paused := false }

/-- Method `resume()`: no-op when not paused; otherwise clear `paused`
and either `start()` (when not running) or run a pass. -/
def resume (s : TP) : TP × List Ev :=
  if ¬s.paused then (s, [])
  else if ¬(unpause s).isRunning then start (unpause s) else executorFn (unpause s)

/-- Method `setImmediately(b)`: writes the public field only; the
settlement handlers read the captured constructor parameter. -/
def setImmediately (s : TP) (b : Bool) : TP := { s with immediately := b }

/-- Method `setAutoSchedule(b)`. -/
def setAutoSchedule (s : TP) (b : Bool) : TP := { s with autoSchedule := b }

/-- Acceptance of new tasks: assign fresh seqs, append to `restPool` and
`allTasks`. -/
def enqueue (s : TP) (ts : List NewTask) : TP :=
  { s with
    index := s.index + ts.length
    restPool := s.restPool ++ withSeqs s.index ts
    allTasks := s.allTasks ++ withSeqs s.index ts }

/-- Method `addTask`: assign fresh seqs, append to `restPool` and
`allTasks`; when `autoSchedule`, run a pass if already running, else
`start()`. -/
def addTask (s : TP) (ts : List NewTask) : TP × List Ev :=
  if (enqueue s ts).autoSchedule then
    (if (enqueue s ts).isRunning then executorFn (enqueue s ts) else start (enqueue s ts))
  else (enqueue s ts, [])

/-- Method `deleteTask(seq)`: running branch marks the found proxy
deleted and removes it from `runningPool`/`allTasks` (the attempted
`runningTask.handleDelete?.()` call is skipped because the proxy object
was constructed without a `handleDelete` field), then re-runs a pass;
waiting and completed branches invoke the cleanup callback with the
original arguments and filter the corresponding pools; an unknown seq
still re-runs a pass. -/
def deleteRunning (s : TP) (seq : Nat) (p : Proxy) : TP :=
  { s with
    deletedIds := s.deletedIds ++ [p.id]
    runningPool := s.runningPool.filter (fun q => q.seq != seq)
    allTasks := s.allTasks.filter (fun t => t.seq != seq) }

def deleteWaiting (s : TP) (seq : Nat) : TP :=
  { s with
    restPool := s.restPool.filter (fun u => u.seq != seq)
    allTasks := s.allTasks.filter (fun u => u.seq != seq) }

def deleteDone (s : TP) (seq : Nat) : TP :=
  { s with
    allTasks := s.allTasks.filter (fun u => u.seq != seq)
    resultPool := s.resultPool.filter (fun r => r.seq != seq)
    chunkResultPool := s.chunkResultPool.filter (fun r => r.seq != seq) }

/-- The `handleDelete?.(...args)` call of the waiting/completed delete
branches. -/
def cleanupEvs (t : STask) : List Ev :=
  if t.hasCleanup then [Ev.cleanupCall t.seq t.args] else []

def deleteTask (s : TP) (seq : Nat) : TP × List Ev :=
  match s.runningPool.find? (fun p => p.seq == seq) with
  | some p => executorFn (deleteRunning s seq p)
  | none =>
    match s.restPool.find? (fun t => t.seq == seq) with
    | some t =>
      ((executorFn (deleteWaiting s seq)).1,
        cleanupEvs t ++ (executorFn (deleteWaiting s seq)).2)
    | none =>
      match s.allTasks.find? (fun t => t.seq == seq) with
      | some t =>
        ((executorFn (deleteDone s seq)).1, cleanupEvs t ++ (executorFn (deleteDone s seq)).2)
      | none => executorFn s

/-- Snapshot returned by `getStatus()`; `results` is
`this.resultPool.slice()` (a copy). -/
structure StatusSnap where
  total : Nat
  running : Nat
  waiting : Nat
  finished : Nat
  chunkFinished : Nat
  results : List Rec
  paused : Bool
deriving Repr, DecidableEq

/-- Method `getStatus()`. -/
def getStatus (s : TP) : StatusSnap :=
  ⟨s.allTasks.length, s.runningPool.length, s.restPool.length, s.resultPool.length,
    s.chunkResultPool.length, s.resultPool, s.paused⟩

/-- Public operations and settlement events an environment can perform. -/
inductive Op where
  | addTask (ts : List NewTask)
  | deleteTask (seq : Nat)
  | start
  | stop
  | reset
  | setConcurrency (n : Int)
  | pause
  | resume
  | setImmediately (b : Bool)
  | setAutoSchedule (b : Bool)
  | settle (pid : Nat) (out : Outcome) (submitThrows : Bool)
deriving Repr, DecidableEq

/-- One observable step. -/
def step (s : TP) : Op → TP × List Ev
  | Op.addTask ts => addTask s ts
  | Op.deleteTask q => deleteTask s q
  | Op.start => start s
  | Op.stop => (stop s, [])
  | Op.reset => (reset s, [])
  | Op.setConcurrency n => (setConcurrency s n, [])
  | Op.pause => (pause s, [])
  | Op.resume => resume s
  | Op.setImmediately b => (setImmediately s b, [])
  | Op.setAutoSchedule b => (setAutoSchedule s b, [])
  | Op.settle pid out st => settle s pid out st

/-- Run a sequence of operations, accumulating the event trace. -/
def run (s : TP) : List Op → TP × List Ev
  | [] => (s, [])
  | op :: ops =>
    ((run (step s op).1 ops).1, (step s op).2 ++ (run (step s op).1 ops).2)

end TaskPool

namespace TaskPool

/-- True on per-completion result-callback events (a concrete `crtIndex`
was passed). -/
def perCompletion : Ev → Bool
  | Ev.execCall _ _ (some _) _ => true
  | _ => false

/-- True on cleanup-callback events. -/
def isCleanup : Ev → Bool
  | Ev.cleanupCall _ _ => true
  | _ => false

/-- True on task-body invocation events. -/
def isBodyStart : Ev → Bool
  | Ev.bodyStart _ _ => true
  | _ => false

/-- Payload of a whole-array delivery: the drain-time result-callback call
(no current result, no current index) or a submit call. -/
def drainPayload : Ev → Option (List Rec)
  | Ev.execCall r none none false => some r
  | Ev.submitCall r => some r
  | _ => none

/-- True on `setConcurrency` operations. -/
def isSetConc : Op → Bool
  | Op.setConcurrency _ => true
  | _ => false

def cfgC1 : Cfg := ⟨[⟨[], false⟩, ⟨[], false⟩], false, 2, false, false, false, false⟩

def opsC1 : List Op := [Op.start, Op.setConcurrency 0]

/-- Claim C1, counterexample: with two tasks running at concurrency 2,
`setConcurrency 0` yields a reachable state where `|runningPool|` exceeds
`max(concurrency, 0)`, so the bound does not hold at every observation
point after `setConcurrency` lowers it. -/
theorem C1_counterexample :
    max (run (init cfgC1) opsC1).1.concurrency 0
      < ((run (init cfgC1) opsC1).1.runningPool.length : Int) := by decide

def cfgC2 : Cfg := ⟨[⟨[], false⟩, ⟨[], false⟩], true, 2, true, true, false, false⟩

def opsC2 : List Op :=
  [Op.start, Op.settle 1 (Outcome.success 5) false, Op.settle 0 (Outcome.success 9) false]

/-- Claim C2, counterexample: with `maintainOrder = true` and immediate
delivery, the per-completion results array passed to the result callback
after the second settlement is `[seq 1, seq 0]`, which is not strictly
ascending by seq. -/
theorem C2_counterexample :
    Ev.execCall [⟨1, 5, Status.success⟩, ⟨0, 9, Status.success⟩] (some 9) (some 0) false
        ∈ (run (init cfgC2) opsC2).2 ∧
      ¬ List.Pairwise (fun a b => a.seq < b.seq)
          [(⟨1, 5, Status.success⟩ : Rec), ⟨0, 9, Status.success⟩] := by decide

def cfgC3 : Cfg := ⟨[⟨[], false⟩], true, 1, false, false, false, false⟩

def opsC3 : List Op := [Op.start, Op.setImmediately true, Op.settle 0 (Outcome.success 9) false]

/-- Claim C3, code evaluation at the failing input: constructed with
`immediately = false`, then `setImmediately(true)` before the settlement.
The public field is `true`, yet the settlement delivers no per-completion
callback and instead performs the deferred drain delivery: the handlers
read the constructor-captured `immediately`, not the field the setter
writes. -/
theorem C3_code_eval :
    (run (init cfgC3) opsC3).1.immediately = true ∧
      ((run (init cfgC3) opsC3).2.all fun e => perCompletion e = false) ∧
      Ev.execCall [⟨0, 9, Status.success⟩] none none false ∈ (run (init cfgC3) opsC3).2 := by
  decide

def cfgC4 : Cfg := ⟨[⟨[], false⟩], false, 1, false, false, false, false⟩

/-- Claim C4, counterexample: `start()` dispatches synchronously, so with
one waiting task and concurrency 1, calling `pause()` immediately after
`start()` leaves one task running and its body already invoked, although
no `resume()` occurred. -/
theorem C4_counterexample :
    (getStatus (run (init cfgC4) [Op.start, Op.pause]).1).running = 1 ∧
      Ev.bodyStart 0 [] ∈ (run (init cfgC4) [Op.start, Op.pause]).2 := by decide

def cfgC5 : Cfg := ⟨[⟨[7], true⟩, ⟨[8], true⟩], false, 1, false, false, false, false⟩

def opsC5 : List Op := [Op.start, Op.deleteTask 0, Op.settle 0 (Outcome.success 3) false]

/-- Claim C5, code evaluation at the failing input: task seq 0 (which has
a cleanup callback) is running when `deleteTask 0` fires.  Its settlement
produces no Result Record and the waiting task seq 1 is promoted, but the
cleanup callback is never invoked — the running proxy was built without
the `handleDelete` field, so `runningTask.handleDelete?.()` is a silent
no-op, contradicting `deleteTask`'s own cleanup call. -/
theorem C5_code_eval :
    ((run (init cfgC5) opsC5).2.filter isCleanup).length = 0 ∧
      (run (init cfgC5) opsC5).1.resultPool = [] ∧
      (run (init cfgC5) opsC5).1.chunkResultPool = [] ∧
      Ev.bodyStart 1 [8] ∈ (run (init cfgC5) opsC5).2 := by decide

def cfgC6 : Cfg := ⟨[], false, 1, false, false, false, false⟩

/-- Claim C6, counterexample: starting a scheduler with no tasks reaches
drain (both pools empty) with the active flag still set — no settlement
ever runs the `finally` handler that clears it — and a later `start()` is
a no-op that runs no pass. -/
theorem C6_counterexample :
    (run (init cfgC6) [Op.start]).1.restPool = [] ∧
      (run (init cfgC6) [Op.start]).1.runningPool = [] ∧
      (run (init cfgC6) [Op.start]).1.isRunning = true ∧
      run (init cfgC6) [Op.start, Op.start] = run (init cfgC6) [Op.start] := by decide

def cfgC7 : Cfg := ⟨[⟨[], false⟩], false, 1, false, false, true, true⟩

def opsC7 : List Op := [Op.start, Op.settle 0 (Outcome.success 2) true]

/-- Claim C7, counterexample: at the drain following the settlement the
chunk is passed to `submit`, but `submit` throws synchronously, so the
statement `this.chunkResultPool = []` never executes and the chunk is
still non-empty after that drain. -/
theorem C7_counterexample :
    Ev.submitCall [⟨0, 2, Status.success⟩] ∈ (run (init cfgC7) opsC7).2 ∧
      (run (init cfgC7) opsC7).1.restPool = [] ∧
      (run (init cfgC7) opsC7).1.runningPool = [] ∧
      (run (init cfgC7) opsC7).1.chunkResultPool ≠ [] := by decide

def cfgC8 : Cfg := ⟨[⟨[], false⟩, ⟨[], false⟩], true, 2, false, false, false, false⟩

def opsC8 : List Op := [Op.start, Op.settle 0 (Outcome.success 3) false, Op.deleteTask 1]

/-- Claim C8, counterexample: the settlement of the deleted proxy seq 1
still runs the `finally` drain evaluation, which invokes the result
callback with the accumulated results and clears the active flag — state
changes and a callback invocation beyond what delete-time processing
did. -/
theorem C8_counterexample :
    (run (init cfgC8) opsC8).1.isRunning = true ∧
      (step (run (init cfgC8) opsC8).1 (Op.settle 1 (Outcome.success 4) false)).1.isRunning
        = false ∧
      (step (run (init cfgC8) opsC8).1 (Op.settle 1 (Outcome.success 4) false)).2
        = [Ev.execCall [⟨0, 3, Status.success⟩] none none false] := by decide

end TaskPool

namespace TaskPool

/-- The state components that the scheduling pass and the settlement
handlers never write (used as a frame for several theorems). -/
structure FlagView where
  isRunning : Bool
  paused : Bool
  deletedIds : List Nat
  autoSubmit : Bool
  hasSubmit : Bool
  ctorImmediately : Bool
  hasExecutor : Bool
  allTasks : List STask
  maintainOrder : Bool
  concurrency : Int
  index : Nat
  immediately : Bool
  autoSchedule : Bool

/-- Projection of a scheduler state to its handler-invariant components. -/
def flagView (s : TP) : FlagView :=
  ⟨s.isRunning, s.paused, s.deletedIds, s.autoSubmit, s.hasSubmit, s.ctorImmediately,
    s.hasExecutor, s.allTasks, s.maintainOrder, s.concurrency, s.index, s.immediately,
    s.autoSchedule⟩

/-- The dispatch loop touches only `restPool`, `runningPool`, `pending`
and `nextId`; in particular it writes no result pool and no flag. -/
theorem dispatchGo_frame (rest : List STask) (s : TP) :
    (dispatchGo rest s).1.resultPool = s.resultPool ∧
      (dispatchGo rest s).1.chunkResultPool = s.chunkResultPool ∧
      flagView (dispatchGo rest s).1 = flagView s := by
  induction rest generalizing s with
  | nil => exact ⟨rfl, rfl, rfl⟩
  | cons t ts ih =>
    by_cases hc : ((s.runningPool.length : Int) < s.concurrency)
    · simp only [dispatchGo]
      rw [if_pos hc]
      exact ih _
    · simp only [dispatchGo]
      rw [if_neg hc]
      exact ⟨rfl, rfl, rfl⟩

/-- The scheduling pass writes no result pool and no flag. -/
theorem executorFn_frame (s : TP) :
    (executorFn s).1.resultPool = s.resultPool ∧
      (executorFn s).1.chunkResultPool = s.chunkResultPool ∧
      flagView (executorFn s).1 = flagView s := by
  unfold executorFn
  split
  · exact ⟨rfl, rfl, rfl⟩
  · exact dispatchGo_frame s.restPool _

/-- The settlement `.then`/`.catch` handler writes no flag. -/
theorem settleBody_frame (s : TP) (p : Proxy) (out : Outcome) :
    flagView (settleBody s p out).1 = flagView s := by
  unfold settleBody
  split
  · rfl
  · cases out <;> exact (executorFn_frame _).2.2

/-- When the proxy is marked deleted, the `.then`/`.catch` handler does
nothing at all. -/
theorem settleBody_deleted (s : TP) (p : Proxy) (out : Outcome)
    (h : s.deletedIds.contains p.id = true) : settleBody s p out = (s, []) := by
  unfold settleBody
  rw [h]
  rfl

/-- When the proxy is not deleted, the handler appends exactly one Result
Record to `resultPool` and to `chunkResultPool`. -/
theorem settleBody_pools (s : TP) (p : Proxy) (out : Outcome)
    (h : s.deletedIds.contains p.id = false) :
    (settleBody s p out).1.resultPool = s.resultPool ++ [recOf p.seq out] ∧
      (settleBody s p out).1.chunkResultPool = s.chunkResultPool ++ [recOf p.seq out] := by
  unfold settleBody
  rw [h]
  cases out with
  | success v => exact ⟨(executorFn_frame _).1, (executorFn_frame _).2.1⟩
  | error e => exact ⟨(executorFn_frame _).1, (executorFn_frame _).2.1⟩

/-- When the proxy is not deleted and immediate delivery is configured,
the handler invokes the result callback with the just-settled seq as the
current index. -/
theorem settleBody_immediate_event (s : TP) (p : Proxy) (out : Outcome)
    (h : s.deletedIds.contains p.id = false) (him : s.ctorImmediately = true)
    (hex : s.hasExecutor = true) :
    ∃ r c e2, Ev.execCall r c (some p.seq) e2 ∈ (settleBody s p out).2 := by
  unfold settleBody
  rw [h]
  cases out with
  | success v =>
    refine ⟨s.resultPool ++ [⟨p.seq, v, Status.success⟩], some v, false, ?_⟩
    simp [him, hex, recOf]
  | error e =>
    refine ⟨s.resultPool ++ [⟨p.seq, e, Status.error⟩], none, true, ?_⟩
    simp [him, hex, recOf]

/-- The drained result-callback delivery touches only `resultPool`. -/
theorem drainExec_frame (s : TP) :
    (drainExec s).1.restPool = s.restPool ∧
      (drainExec s).1.runningPool = s.runningPool ∧
      (drainExec s).1.chunkResultPool = s.chunkResultPool ∧
      flagView (drainExec s).1 = flagView s := by
  unfold drainExec
  split
  · exact ⟨rfl, rfl, rfl, rfl⟩
  · exact ⟨rfl, rfl, rfl, rfl⟩

/-- The drained result-callback delivery at most permutes `resultPool`
(the in-place seq sort). -/
theorem drainExec_resultPool_perm (s : TP) :
    (drainExec s).1.resultPool.Perm s.resultPool := by
  unfold drainExec
  split
  · show (if s.maintainOrder then sortBySeq s.resultPool else s.resultPool).Perm s.resultPool
    split
    · exact List.perm_insertionSort seqLe s.resultPool
    · exact List.Perm.refl _
  · exact List.Perm.refl _

/-- The submit hand-off touches only `chunkResultPool` and `isRunning`. -/
theorem drainSubmit_frame (s : TP) (st : Bool) :
    (drainSubmit s st).1.restPool = s.restPool ∧
      (drainSubmit s st).1.runningPool = s.runningPool ∧
      (drainSubmit s st).1.resultPool = s.resultPool ∧
      (drainSubmit s st).1.allTasks = s.allTasks ∧
      (drainSubmit s st).1.paused = s.paused ∧
      (drainSubmit s st).1.deletedIds = s.deletedIds := by
  unfold drainSubmit
  cases st <;> split <;> exact ⟨rfl, rfl, rfl, rfl, rfl, rfl⟩

/-- When `submit` does not throw, every path through the hand-off resets
`isRunning`. -/
theorem drainSubmit_isRunning (s : TP) : (drainSubmit s false).1.isRunning = false := by
  unfold drainSubmit
  split
  · rfl
  · rfl

/-- When `submit` does not throw and auto-submission is configured, the
chunk accumulator is empty after the hand-off. -/
theorem drainSubmit_chunk_empty (s : TP) (ha : s.autoSubmit = true)
    (hs : s.hasSubmit = true) : (drainSubmit s false).1.chunkResultPool = [] := by
  unfold drainSubmit
  split
  · rfl
  · next hcond =>
    rw [ha, hs] at hcond
    simp only [true_and, not_lt, Nat.le_zero, List.length_eq_zero] at hcond
    exact hcond

/-- The hand-off leaves the chunk a permutation of itself or empties it. -/
theorem drainSubmit_chunk_perm_or_nil (s : TP) (st : Bool) :
    (drainSubmit s st).1.chunkResultPool.Perm s.chunkResultPool ∨
      (drainSubmit s st).1.chunkResultPool = [] := by
  unfold drainSubmit
  split
  · cases st
    · right; rfl
    · left
      show (if s.maintainOrder then sortBySeq s.chunkResultPool else s.chunkResultPool).Perm
        s.chunkResultPool
      split
      · exact List.perm_insertionSort seqLe s.chunkResultPool
      · exact List.Perm.refl _
  · left; exact List.Perm.refl _

/-- Any record in the chunk at hand-off time is either still in the chunk
afterwards or was contained in a delivered submit chunk. -/
theorem drainSubmit_chunk_mem (s : TP) (st : Bool) (r : Rec)
    (hr : r ∈ s.chunkResultPool) :
    r ∈ (drainSubmit s st).1.chunkResultPool ∨
      ∃ l, Ev.submitCall l ∈ (drainSubmit s st).2 ∧ r ∈ l := by
  unfold drainSubmit
  split
  · right
    refine ⟨if s.maintainOrder then sortBySeq s.chunkResultPool else s.chunkResultPool, ?_, ?_⟩
    · cases st
      · show Ev.submitCall _ ∈ [Ev.submitCall _]
        exact List.mem_singleton.2 rfl
      · show Ev.submitCall _ ∈ [Ev.submitCall _]
        exact List.mem_singleton.2 rfl
    · split
      · exact ((List.perm_insertionSort seqLe s.chunkResultPool).mem_iff).2 hr
      · exact hr
  · left; exact hr

end TaskPool

namespace TaskPool

/-- The drain evaluation never touches the task pools, the pause flag or
the deleted set. -/
theorem drainCheck_frame (s : TP) (st : Bool) :
    (drainCheck s st).1.restPool = s.restPool ∧
      (drainCheck s st).1.runningPool = s.runningPool ∧
      (drainCheck s st).1.allTasks = s.allTasks ∧
      (drainCheck s st).1.paused = s.paused ∧
      (drainCheck s st).1.deletedIds = s.deletedIds := by
  unfold drainCheck
  split
  · obtain ⟨h1, h2, _, h4⟩ := drainExec_frame s
    obtain ⟨g1, g2, _, g4, g5, g6⟩ := drainSubmit_frame (drainExec s).1 st
    exact ⟨g1.trans h1, g2.trans h2, g4.trans (congrArg FlagView.allTasks h4),
      g5.trans (congrArg FlagView.paused h4), g6.trans (congrArg FlagView.deletedIds h4)⟩
  · exact ⟨rfl, rfl, rfl, rfl, rfl⟩

/-- The drain evaluation at most permutes `resultPool`. -/
theorem drainCheck_resultPool_perm (s : TP) (st : Bool) :
    (drainCheck s st).1.resultPool.Perm s.resultPool := by
  unfold drainCheck
  split
  · have h := drainExec_resultPool_perm s
    rw [← (drainSubmit_frame (drainExec s).1 st).2.2.1] at h
    exact h
  · exact List.Perm.refl _

/-- Records in `resultPool` survive the drain evaluation. -/
theorem drainCheck_resultPool_mem (s : TP) (st : Bool) (r : Rec)
    (hr : r ∈ s.resultPool) : r ∈ (drainCheck s st).1.resultPool :=
  (drainCheck_resultPool_perm s st).mem_iff.2 hr

/-- When the pools are drained and `submit` does not throw, the `finally`
handler resets the active flag. -/
theorem drainCheck_isRunning_false (s : TP) (h1 : s.restPool = [])
    (h2 : s.runningPool = []) : (drainCheck s false).1.isRunning = false := by
  unfold drainCheck
  rw [if_pos (by simp [h1, h2])]
  exact drainSubmit_isRunning _

/-- When the pools are drained, auto-submission is configured and `submit`
does not throw, the chunk accumulator is empty afterwards. -/
theorem drainCheck_chunk_empty (s : TP) (h1 : s.restPool = [])
    (h2 : s.runningPool = []) (ha : s.autoSubmit = true) (hs : s.hasSubmit = true) :
    (drainCheck s false).1.chunkResultPool = [] := by
  unfold drainCheck
  rw [if_pos (by simp [h1, h2])]
  apply drainSubmit_chunk_empty
  · exact (congrArg FlagView.autoSubmit (drainExec_frame s).2.2.2).trans ha
  · exact (congrArg FlagView.hasSubmit (drainExec_frame s).2.2.2).trans hs

/-- The drain evaluation leaves the chunk a permutation of itself or
empties it. -/
theorem drainCheck_chunk_perm_or_nil (s : TP) (st : Bool) :
    (drainCheck s st).1.chunkResultPool.Perm s.chunkResultPool ∨
      (drainCheck s st).1.chunkResultPool = [] := by
  unfold drainCheck
  split
  · rcases drainSubmit_chunk_perm_or_nil (drainExec s).1 st with h | h
    · left
      rw [(drainExec_frame s).2.2.1] at h
      exact h
    · right; exact h
  · left; exact List.Perm.refl _

/-- A record in the chunk at drain time either stays in the chunk or was
part of a delivered submit chunk. -/
theorem drainCheck_chunk_mem (s : TP) (st : Bool) (r : Rec)
    (hr : r ∈ s.chunkResultPool) :
    r ∈ (drainCheck s st).1.chunkResultPool ∨
      ∃ l, Ev.submitCall l ∈ (drainCheck s st).2 ∧ r ∈ l := by
  unfold drainCheck
  split
  · have hr2 : r ∈ (drainExec s).1.chunkResultPool := by
      rw [(drainExec_frame s).2.2.1]; exact hr
    rcases drainSubmit_chunk_mem (drainExec s).1 st r hr2 with h | ⟨l, hl, hrl⟩
    · left; exact h
    · right; exact ⟨l, List.mem_append_right _ hl, hrl⟩
  · left; exact hr

/-- Every event emitted by the result-delivery half of the drain is a
whole-array delivery. -/
theorem drainExec_payload (s : TP) :
    ∀ e ∈ (drainExec s).2, drainPayload e ≠ none := by
  unfold drainExec
  split
  · intro e he
    rw [List.mem_singleton] at he
    subst he
    simp [drainPayload]
  · intro e he
    exact absurd he (List.not_mem_nil e)

/-- Every event emitted by the submit half of the drain is a whole-array
delivery. -/
theorem drainSubmit_payload (s : TP) (st : Bool) :
    ∀ e ∈ (drainSubmit s st).2, drainPayload e ≠ none := by
  unfold drainSubmit
  split
  · cases st
    · intro e he
      have he2 : e ∈ [Ev.submitCall (if s.maintainOrder then sortBySeq s.chunkResultPool
          else s.chunkResultPool)] := he
      rw [List.mem_singleton] at he2
      subst he2
      simp [drainPayload]
    · intro e he
      have he2 : e ∈ [Ev.submitCall (if s.maintainOrder then sortBySeq s.chunkResultPool
          else s.chunkResultPool)] := he
      rw [List.mem_singleton] at he2
      subst he2
      simp [drainPayload]
  · intro e he
    exact absurd he (List.not_mem_nil e)

/-- Every event emitted by the `finally` drain evaluation is a whole-array
delivery (never a per-task callback). -/
theorem drainCheck_payload (s : TP) (st : Bool) :
    ∀ e ∈ (drainCheck s st).2, drainPayload e ≠ none := by
  unfold drainCheck
  split
  · intro e he
    rcases List.mem_append.1 he with h | h
    · exact drainExec_payload s e h
    · exact drainSubmit_payload (drainExec s).1 st e h
  · intro e he
    exact absurd he (List.not_mem_nil e)

/-- Unfolding of a settlement whose proxy is found among the in-flight
continuations. -/
theorem settle_eq (s : TP) (pid : Nat) (out : Outcome) (st : Bool) (q : Proxy)
    (hfind : s.pending.find? (fun p => p.id == pid) = some q) :
    settle s pid out st =
      ((drainCheck (settleBody (dropPending s pid) q out).1 st).1,
        (settleBody (dropPending s pid) q out).2 ++
          (drainCheck (settleBody (dropPending s pid) q out).1 st).2) := by
  unfold settle
  rw [hfind]

end TaskPool

namespace TaskPool

/-- Claim C6 (amended): `start()` is idempotent — a no-op while the active
flag is set, and the flag is cleared by the drain evaluation that follows
a settlement.  A scheduler started with no tasks reaches drain without any
settlement, so its active flag stays set and a later `start()` stays a
no-op until a settlement drain (or `stop()`/`reset()`) clears it. -/
theorem C6_amended (s : TP) (pid : Nat) (out : Outcome) (q : Proxy) :
    (s.isRunning = true → start s = (s, [])) ∧
      (s.pending.find? (fun p2 => p2.id == pid) = some q →
        (settle s pid out false).1.restPool = [] →
        (settle s pid out false).1.runningPool = [] →
        (settle s pid out false).1.isRunning = false) := by
  constructor
  · intro h
    unfold start
    rw [h]
    rfl
  · intro hfind h1 h2
    rw [settle_eq s pid out false q hfind] at h1 h2 ⊢
    apply drainCheck_isRunning_false
    · rw [← (drainCheck_frame (settleBody (dropPending s pid) q out).1 false).1]
      exact h1
    · rw [← (drainCheck_frame (settleBody (dropPending s pid) q out).1 false).2.1]
      exact h2

def c6wEmpty : TP := (run (init ⟨[], false, 1, false, false, false, false⟩) [Op.start]).1

def c6wOne : TP := (run (init ⟨[⟨[], false⟩], false, 1, false, false, false, false⟩) [Op.start]).1

/-- Concrete instance of `C6_amended`: a second `start()` on an active
scheduler is a no-op, and a settlement that drains the pools clears the
active flag. -/
theorem C6_witness :
    start c6wEmpty = (c6wEmpty, []) ∧
      (settle c6wOne 0 (Outcome.success 1) false).1.isRunning = false :=
  ⟨(C6_amended c6wEmpty 0 (Outcome.success 1) ⟨0, 0, []⟩).1 (by decide),
    (C6_amended c6wOne 0 (Outcome.success 1) ⟨0, 0, []⟩).2 (by decide) (by decide) (by decide)⟩

/-- Claim C7 (amended): with auto-submission configured, at the drain that
follows a settlement the chunk accumulator is passed to `submit` when
non-empty, and provided `submit` returns without throwing synchronously
the chunk is empty afterwards (a later rejection of the returned promise
is never inspected and cannot restore it); a synchronous throw of `submit`
skips the clearing statement. -/
theorem C7_amended (s : TP) (pid : Nat) (out : Outcome) (q : Proxy)
    (hfind : s.pending.find? (fun p2 => p2.id == pid) = some q)
    (ha : s.autoSubmit = true) (hs : s.hasSubmit = true)
    (h1 : (settle s pid out false).1.restPool = [])
    (h2 : (settle s pid out false).1.runningPool = []) :
    (settle s pid out false).1.chunkResultPool = [] ∧
      (s.deletedIds.contains q.id = false →
        ∃ l, Ev.submitCall l ∈ (settle s pid out false).2 ∧ recOf q.seq out ∈ l) := by
  rw [settle_eq s pid out false q hfind] at h1 h2 ⊢
  have e1 : (settleBody (dropPending s pid) q out).1.restPool = [] := by
    rw [← (drainCheck_frame (settleBody (dropPending s pid) q out).1 false).1]
    exact h1
  have e2 : (settleBody (dropPending s pid) q out).1.runningPool = [] := by
    rw [← (drainCheck_frame (settleBody (dropPending s pid) q out).1 false).2.1]
    exact h2
  have ea : (settleBody (dropPending s pid) q out).1.autoSubmit = true :=
    (congrArg FlagView.autoSubmit (settleBody_frame (dropPending s pid) q out)).trans ha
  have es : (settleBody (dropPending s pid) q out).1.hasSubmit = true :=
    (congrArg FlagView.hasSubmit (settleBody_frame (dropPending s pid) q out)).trans hs
  have hempty := drainCheck_chunk_empty _ e1 e2 ea es
  refine ⟨hempty, ?_⟩
  intro hdel
  have hdel0 : (dropPending s pid).deletedIds.contains q.id = false := hdel
  have hrec : recOf q.seq out ∈ (settleBody (dropPending s pid) q out).1.chunkResultPool := by
    rw [(settleBody_pools (dropPending s pid) q out hdel0).2]
    exact List.mem_append_right _ (List.mem_singleton.2 rfl)
  rcases drainCheck_chunk_mem _ false _ hrec with hmem | ⟨l, hl, hrl⟩
  · rw [hempty] at hmem
    exact absurd hmem (List.not_mem_nil _)
  · exact ⟨l, List.mem_append_right _ hl, hrl⟩

def c7wState : TP := (run (init ⟨[⟨[3], false⟩], false, 1, false, false, true, true⟩) [Op.start]).1

/-- Concrete instance of `C7_amended`: the settlement of the only task
drains the pool, submits the chunk and clears it (no synchronous throw). -/
theorem C7_witness :
    (settle c7wState 0 (Outcome.success 2) false).1.chunkResultPool = [] ∧
      (c7wState.deletedIds.contains 0 = false →
        ∃ l, Ev.submitCall l ∈ (settle c7wState 0 (Outcome.success 2) false).2 ∧
          recOf 0 (Outcome.success 2) ∈ l) :=
  C7_amended c7wState 0 (Outcome.success 2) ⟨0, 0, [3]⟩ (by decide) (by decide) (by decide)
    (by decide) (by decide)

/-- Claim C8 (amended): the settlement of a proxy marked deleted before it
settled performs no per-task bookkeeping — no Result Record is appended
(both pools keep their records, `resultPool` at most re-sorted in place),
`runningPool`, `restPool`, `allTasks` and the pause flag are untouched and
no per-completion callback, cleanup or dispatch happens — but the `finally`
drain evaluation still runs, so whole-array deliveries (drain result
callback, submit with chunk clearing and active-flag reset) may still
occur. -/
theorem C8_amended (s : TP) (pid : Nat) (out : Outcome) (st : Bool) (q : Proxy)
    (hfind : s.pending.find? (fun p2 => p2.id == pid) = some q)
    (hdel : s.deletedIds.contains q.id = true) :
    (settle s pid out st).1.resultPool.Perm s.resultPool ∧
      (settle s pid out st).1.runningPool = s.runningPool ∧
      (settle s pid out st).1.restPool = s.restPool ∧
      (settle s pid out st).1.allTasks = s.allTasks ∧
      (settle s pid out st).1.paused = s.paused ∧
      ((settle s pid out st).1.chunkResultPool.Perm s.chunkResultPool ∨
        (settle s pid out st).1.chunkResultPool = []) ∧
      (∀ e ∈ (settle s pid out st).2, drainPayload e ≠ none) := by
  have hdel0 : (dropPending s pid).deletedIds.contains q.id = true := hdel
  rw [settle_eq s pid out st q hfind, settleBody_deleted (dropPending s pid) q out hdel0]
  refine ⟨drainCheck_resultPool_perm _ st, (drainCheck_frame _ st).2.1,
    (drainCheck_frame _ st).1, (drainCheck_frame _ st).2.2.1, (drainCheck_frame _ st).2.2.2.1,
    ?_, ?_⟩
  · rcases drainCheck_chunk_perm_or_nil (dropPending s pid) st with h | h
    · left; exact h
    · right; exact h
  · intro e he
    have he2 : e ∈ ([] ++ (drainCheck (dropPending s pid) st).2) := he
    rw [List.nil_append] at he2
    exact drainCheck_payload _ st e he2

def c8wState : TP :=
  (run (init ⟨[⟨[], false⟩], false, 1, false, false, false, false⟩)
    [Op.start, Op.deleteTask 0]).1

/-- Concrete instance of `C8_amended`: settling the deleted proxy leaves
every pool as it was (no records existed, none appear). -/
theorem C8_witness :
    (settle c8wState 0 (Outcome.success 5) false).1.resultPool.Perm c8wState.resultPool ∧
      (settle c8wState 0 (Outcome.success 5) false).1.runningPool = c8wState.runningPool ∧
      (settle c8wState 0 (Outcome.success 5) false).1.restPool = c8wState.restPool ∧
      (settle c8wState 0 (Outcome.success 5) false).1.allTasks = c8wState.allTasks ∧
      (settle c8wState 0 (Outcome.success 5) false).1.paused = c8wState.paused ∧
      ((settle c8wState 0 (Outcome.success 5) false).1.chunkResultPool.Perm
          c8wState.chunkResultPool ∨
        (settle c8wState 0 (Outcome.success 5) false).1.chunkResultPool = []) ∧
      (∀ e ∈ (settle c8wState 0 (Outcome.success 5) false).2, drainPayload e ≠ none) :=
  C8_amended c8wState 0 (Outcome.success 5) false ⟨0, 0, []⟩ (by decide) (by decide)

/-- Claim C10: `stop()` does not mark in-flight proxies deleted, so a
pending proxy that was not deleted still produces its Result Record when
it settles after `stop()` — the record lands in `resultPool`, lands in
`chunkResultPool` (or is handed to `submit` at the drain), and in
immediate mode the result callback still fires with that seq. -/
theorem C10_theorem (s : TP) (pid : Nat) (out : Outcome) (q : Proxy)
    (hfind : s.pending.find? (fun p2 => p2.id == pid) = some q)
    (hdel : s.deletedIds.contains q.id = false) :
    recOf q.seq out ∈ (settle (stop s) pid out false).1.resultPool ∧
      (recOf q.seq out ∈ (settle (stop s) pid out false).1.chunkResultPool ∨
        ∃ l, Ev.submitCall l ∈ (settle (stop s) pid out false).2 ∧ recOf q.seq out ∈ l) ∧
      (s.ctorImmediately = true → s.hasExecutor = true →
        ∃ r c e2, Ev.execCall r c (some q.seq) e2 ∈ (settle (stop s) pid out false).2) := by
  have hfind2 : (stop s).pending.find? (fun p2 => p2.id == pid) = some q := hfind
  have hdel0 : (dropPending (stop s) pid).deletedIds.contains q.id = false := hdel
  rw [settle_eq (stop s) pid out false q hfind2]
  refine ⟨?_, ?_, ?_⟩
  · apply drainCheck_resultPool_mem
    rw [(settleBody_pools (dropPending (stop s) pid) q out hdel0).1]
    exact List.mem_append_right _ (List.mem_singleton.2 rfl)
  · have hrec : recOf q.seq out
        ∈ (settleBody (dropPending (stop s) pid) q out).1.chunkResultPool := by
      rw [(settleBody_pools (dropPending (stop s) pid) q out hdel0).2]
      exact List.mem_append_right _ (List.mem_singleton.2 rfl)
    rcases drainCheck_chunk_mem _ false _ hrec with h | ⟨l, hl, hrl⟩
    · left; exact h
    · right; exact ⟨l, List.mem_append_right _ hl, hrl⟩
  · intro him hex
    have him0 : (dropPending (stop s) pid).ctorImmediately = true := him
    have hex0 : (dropPending (stop s) pid).hasExecutor = true := hex
    obtain ⟨r, c, e2, hmem⟩ :=
      settleBody_immediate_event (dropPending (stop s) pid) q out hdel0 him0 hex0
    exact ⟨r, c, e2, List.mem_append_left _ hmem⟩

def c10wState : TP := (run (init ⟨[⟨[2], false⟩], true, 1, false, true, false, false⟩) [Op.start]).1

/-- Concrete instance of `C10_theorem`: the in-flight task fails after
`stop()`; the error record is still produced and the immediate callback
still fires for seq 0. -/
theorem C10_witness :
    recOf 0 (Outcome.error 7) ∈ (settle (stop c10wState) 0 (Outcome.error 7) false).1.resultPool ∧
      (recOf 0 (Outcome.error 7)
          ∈ (settle (stop c10wState) 0 (Outcome.error 7) false).1.chunkResultPool ∨
        ∃ l, Ev.submitCall l ∈ (settle (stop c10wState) 0 (Outcome.error 7) false).2 ∧
          recOf 0 (Outcome.error 7) ∈ l) ∧
      (c10wState.ctorImmediately = true → c10wState.hasExecutor = true →
        ∃ r c e2, Ev.execCall r c (some 0) e2
          ∈ (settle (stop c10wState) 0 (Outcome.error 7) false).2) :=
  C10_theorem c10wState 0 (Outcome.error 7) ⟨0, 0, [2]⟩ (by decide) (by decide)

end TaskPool

namespace TaskPool

/-- The concurrency bound from the spec:
`|runningPool| ≤ max(concurrency, 0)`. -/
def ConcBound (s : TP) : Prop := (s.runningPool.length : Int) ≤ max s.concurrency 0

/-- The dispatch loop only pushes a proxy while `|runningPool|` is
strictly below the bound, so it preserves the concurrency bound. -/
theorem concBound_dispatchGo (rest : List STask) (s : TP) (h : ConcBound s) :
    ConcBound (dispatchGo rest s).1 := by
  induction rest generalizing s with
  | nil => exact h
  | cons t ts ih =>
    by_cases hc : ((s.runningPool.length : Int) < s.concurrency)
    · simp only [dispatchGo]
      rw [if_pos hc]
      apply ih
      unfold ConcBound
      simp only [spawn, List.length_append, List.length_singleton]
      have hmax : s.concurrency ≤ max s.concurrency 0 := le_max_left _ _
      push_cast
      omega
    · simp only [dispatchGo]
      rw [if_neg hc]
      exact h

theorem concBound_executorFn (s : TP) (h : ConcBound s) : ConcBound (executorFn s).1 := by
  unfold executorFn
  split
  · exact h
  · exact concBound_dispatchGo s.restPool _ h

theorem concBound_start (s : TP) (h : ConcBound s) : ConcBound (start s).1 := by
  unfold start
  split
  · exact h
  · exact concBound_executorFn _ h

theorem concBound_settleBody (s : TP) (p : Proxy) (out : Outcome) (h : ConcBound s) :
    ConcBound (settleBody s p out).1 := by
  have hfil : ConcBound (removeRunning (record s p out) p) := by
    show ((List.filter (fun q => q.seq != p.seq) s.runningPool).length : Int)
      ≤ max s.concurrency 0
    exact le_trans (Nat.cast_le.2 (List.length_filter_le _ _)) h
  unfold settleBody
  split
  · exact h
  · cases out with
    | success v => exact concBound_executorFn _ hfil
    | error e => exact concBound_executorFn _ hfil

theorem drainSubmit_concurrency (s : TP) (st : Bool) :
    (drainSubmit s st).1.concurrency = s.concurrency := by
  unfold drainSubmit
  cases st <;> split <;> rfl

theorem drainCheck_concurrency (s : TP) (st : Bool) :
    (drainCheck s st).1.concurrency = s.concurrency := by
  unfold drainCheck
  split
  · exact (drainSubmit_concurrency _ st).trans
      (congrArg FlagView.concurrency (drainExec_frame s).2.2.2)
  · rfl

/-- Transport of the concurrency bound along equal running pool and
bound. -/
theorem concBound_of_eq {s t : TP} (h1 : t.runningPool = s.runningPool)
    (h2 : t.concurrency = s.concurrency) (h : ConcBound s) : ConcBound t := by
  unfold ConcBound
  rw [h1, h2]
  exact h

theorem concBound_drainCheck (s : TP) (st : Bool) (h : ConcBound s) :
    ConcBound (drainCheck s st).1 :=
  concBound_of_eq (drainCheck_frame s st).2.1 (drainCheck_concurrency s st) h

theorem concBound_settle (s : TP) (pid : Nat) (out : Outcome) (st : Bool) (h : ConcBound s) :
    ConcBound (settle s pid out st).1 := by
  unfold settle
  split
  · exact h
  · exact concBound_drainCheck _ st (concBound_settleBody _ _ out h)

/-- Every public operation except `setConcurrency` preserves the
concurrency bound. -/
theorem concBound_step (s : TP) (op : Op) (hop : isSetConc op = false) (h : ConcBound s) :
    ConcBound (step s op).1 := by
  cases op with
  | addTask ts =>
    show ConcBound (addTask s ts).1
    unfold addTask
    split
    · split
      · exact concBound_executorFn _ h
      · exact concBound_start _ h
    · exact h
  | deleteTask seq =>
    show ConcBound (deleteTask s seq).1
    have hfil : ConcBound (deleteRunning s seq (⟨0, 0, []⟩ : Proxy)) := by
      show ((List.filter (fun q => q.seq != seq) s.runningPool).length : Int)
        ≤ max s.concurrency 0
      exact le_trans (Nat.cast_le.2 (List.length_filter_le _ _)) h
    unfold deleteTask
    split
    · exact concBound_executorFn _ hfil
    · split
      · exact concBound_executorFn _ h
      · split
        · exact concBound_executorFn _ h
        · exact concBound_executorFn _ h
  | start => exact concBound_start _ h
  | stop => exact le_max_right _ _
  | reset => exact le_max_right _ _
  | setConcurrency n => simp [isSetConc] at hop
  | pause => exact h
  | resume =>
    show ConcBound (resume s).1
    unfold resume
    split
    · exact h
    · split
      · exact concBound_start _ h
      · exact concBound_executorFn _ h
  | setImmediately b => exact h
  | setAutoSchedule b => exact h
  | settle pid out st => exact concBound_settle _ _ _ _ h

/-- A run without `setConcurrency` preserves the concurrency bound. -/
theorem concBound_run (ops : List Op) (s : TP)
    (hops : ops.all (fun op => !isSetConc op) = true) (h : ConcBound s) :
    ConcBound (run s ops).1 := by
  induction ops generalizing s with
  | nil => exact h
  | cons op ops ih =>
    rw [List.all_cons, Bool.and_eq_true] at hops
    exact ih _ hops.2 (concBound_step s op (by simpa using hops.1) h)

/-- Claim C1 (amended): at every observation point reachable by public
operations and settlements that do not include `setConcurrency`,
`|runningPool| ≤ max(concurrency, 0)`; `setConcurrency` can lower the
bound below the current occupancy (no preemption), producing states that
violate the inequality until settlements shrink the pool. -/
theorem C1_amended (cfg : Cfg) (ops : List Op)
    (hops : ops.all (fun op => !isSetConc op) = true) :
    ((run (init cfg) ops).1.runningPool.length : Int)
      ≤ max (run (init cfg) ops).1.concurrency 0 :=
  concBound_run ops (init cfg) hops (by simp [ConcBound, init])

/-- Concrete instance of `C1_amended`: two tasks at concurrency 2, one
settles, one more is added and dispatched; the bound holds. -/
theorem C1_witness :
    ((run (init ⟨[⟨[], false⟩, ⟨[], false⟩], false, 2, false, false, false, false⟩)
          [Op.start, Op.settle 0 (Outcome.success 1) false, Op.addTask [⟨[], false⟩]]).1.runningPool.length : Int)
      ≤ max (run (init ⟨[⟨[], false⟩, ⟨[], false⟩], false, 2, false, false, false, false⟩)
          [Op.start, Op.settle 0 (Outcome.success 1) false, Op.addTask [⟨[], false⟩]]).1.concurrency 0 :=
  C1_amended ⟨[⟨[], false⟩, ⟨[], false⟩], false, 2, false, false, false, false⟩
    [Op.start, Op.settle 0 (Outcome.success 1) false, Op.addTask [⟨[], false⟩]] (by decide)

end TaskPool

namespace TaskPool

/-- Non-decreasing by `seq`. -/
def SortedLe (l : List Rec) : Prop := List.Pairwise (fun a b => a.seq ≤ b.seq) l

theorem sortedLe_sortBySeq (l : List Rec) : SortedLe (sortBySeq l) :=
  List.Pairwise.imp (fun h => h) (List.sorted_insertionSort seqLe l)

/-- Every whole-array delivery among the events is sorted by seq. -/
def GoodEvs (evs : List Ev) : Prop :=
  ∀ e ∈ evs, ∀ r, drainPayload e = some r → SortedLe r

theorem goodEvs_nil : GoodEvs [] := fun e he => absurd he (List.not_mem_nil e)

theorem goodEvs_append {a b : List Ev} (ha : GoodEvs a) (hb : GoodEvs b) :
    GoodEvs (a ++ b) := by
  intro e he r hr
  rcases List.mem_append.1 he with h | h
  · exact ha e h r hr
  · exact hb e h r hr

theorem goodEvs_cons {e : Ev} {evs : List Ev} (he : drainPayload e = none)
    (h : GoodEvs evs) : GoodEvs (e :: evs) := by
  intro e2 he2 r hr
  rcases List.mem_cons.1 he2 with h2 | h2
  · subst h2
    rw [he] at hr
    exact absurd hr (by simp)
  · exact h e2 h2 r hr

theorem goodEvs_singleton_exec (r : List Rec) (h : SortedLe r) :
    GoodEvs [Ev.execCall r none none false] := by
  intro e he r2 hr
  rw [List.mem_singleton] at he
  subst he
  simp only [drainPayload, Option.some.injEq] at hr
  exact hr ▸ h

theorem goodEvs_singleton_submit (r : List Rec) (h : SortedLe r) :
    GoodEvs [Ev.submitCall r] := by
  intro e he r2 hr
  rw [List.mem_singleton] at he
  subst he
  simp only [drainPayload, Option.some.injEq] at hr
  exact hr ▸ h

theorem goodEvs_dispatchGo (rest : List STask) (s : TP) : GoodEvs (dispatchGo rest s).2 := by
  induction rest generalizing s with
  | nil => exact goodEvs_nil
  | cons t ts ih =>
    by_cases hc : ((s.runningPool.length : Int) < s.concurrency)
    · simp only [dispatchGo]
      rw [if_pos hc]
      refine goodEvs_cons ?_ (ih _)
      rfl
    · simp only [dispatchGo]
      rw [if_neg hc]
      exact goodEvs_nil

theorem goodEvs_executorFn (s : TP) : GoodEvs (executorFn s).2 := by
  unfold executorFn
  split
  · exact goodEvs_nil
  · exact goodEvs_dispatchGo _ _

theorem goodEvs_settleBody (s : TP) (p : Proxy) (out : Outcome) :
    GoodEvs (settleBody s p out).2 := by
  unfold settleBody
  split
  · exact goodEvs_nil
  · cases out with
    | success v =>
      refine goodEvs_append ?_ (goodEvs_executorFn _)
      split
      · refine goodEvs_cons ?_ goodEvs_nil
        rfl
      · exact goodEvs_nil
    | error e =>
      refine goodEvs_append ?_ (goodEvs_cons ?_ (goodEvs_executorFn _))
      · split
        · refine goodEvs_cons ?_ goodEvs_nil
          rfl
        · exact goodEvs_nil
      · rfl

theorem goodEvs_drainExec (s : TP) (hm : s.maintainOrder = true) :
    GoodEvs (drainExec s).2 := by
  unfold drainExec
  rw [hm]
  split
  · exact goodEvs_singleton_exec _ (sortedLe_sortBySeq _)
  · exact goodEvs_nil

theorem goodEvs_drainSubmit (s : TP) (st : Bool) (hm : s.maintainOrder = true) :
    GoodEvs (drainSubmit s st).2 := by
  unfold drainSubmit
  rw [hm]
  cases st
  · split
    · exact goodEvs_singleton_submit _ (sortedLe_sortBySeq _)
    · exact goodEvs_nil
  · split
    · exact goodEvs_singleton_submit _ (sortedLe_sortBySeq _)
    · exact goodEvs_nil

theorem goodEvs_drainCheck (s : TP) (st : Bool) (hm : s.maintainOrder = true) :
    GoodEvs (drainCheck s st).2 := by
  unfold drainCheck
  split
  · apply goodEvs_append (goodEvs_drainExec s hm)
    exact goodEvs_drainSubmit _ st
      ((congrArg FlagView.maintainOrder (drainExec_frame s).2.2.2).trans hm)
  · exact goodEvs_nil

theorem goodEvs_settle (s : TP) (pid : Nat) (out : Outcome) (st : Bool)
    (hm : s.maintainOrder = true) : GoodEvs (settle s pid out st).2 := by
  unfold settle
  split
  · exact goodEvs_nil
  · apply goodEvs_append (goodEvs_settleBody _ _ _)
    exact goodEvs_drainCheck _ st
      ((congrArg FlagView.maintainOrder (settleBody_frame (dropPending s pid) _ _)).trans hm)

theorem goodEvs_cleanupEvs (t : STask) : GoodEvs (cleanupEvs t) := by
  unfold cleanupEvs
  split
  · refine goodEvs_cons ?_ goodEvs_nil
    rfl
  · exact goodEvs_nil

theorem goodEvs_start (s : TP) : GoodEvs (start s).2 := by
  unfold start
  split
  · exact goodEvs_nil
  · exact goodEvs_executorFn _

/-- Only settlement events produce whole-array deliveries, and those are
seq-sorted when `maintainOrder` holds; every other operation emits only
per-task events. -/
theorem goodEvs_step (s : TP) (op : Op) (hm : s.maintainOrder = true) :
    GoodEvs (step s op).2 := by
  cases op with
  | addTask ts =>
    show GoodEvs (addTask s ts).2
    unfold addTask
    split
    · split
      · exact goodEvs_executorFn _
      · exact goodEvs_start _
    · exact goodEvs_nil
  | deleteTask seq =>
    show GoodEvs (deleteTask s seq).2
    unfold deleteTask
    split
    · exact goodEvs_executorFn _
    · split
      · exact goodEvs_append (goodEvs_cleanupEvs _) (goodEvs_executorFn _)
      · split
        · exact goodEvs_append (goodEvs_cleanupEvs _) (goodEvs_executorFn _)
        · exact goodEvs_executorFn _
  | start => exact goodEvs_start _
  | stop => exact goodEvs_nil
  | reset => exact goodEvs_nil
  | setConcurrency n => exact goodEvs_nil
  | pause => exact goodEvs_nil
  | resume =>
    show GoodEvs (resume s).2
    unfold resume
    split
    · exact goodEvs_nil
    · split
      · exact goodEvs_start _
      · exact goodEvs_executorFn _
  | setImmediately b => exact goodEvs_nil
  | setAutoSchedule b => exact goodEvs_nil
  | settle pid out st => exact goodEvs_settle _ _ _ _ hm

theorem drainSubmit_maintainOrder (s : TP) (st : Bool) :
    (drainSubmit s st).1.maintainOrder = s.maintainOrder := by
  unfold drainSubmit
  cases st <;> split <;> rfl

theorem drainCheck_maintainOrder (s : TP) (st : Bool) :
    (drainCheck s st).1.maintainOrder = s.maintainOrder := by
  unfold drainCheck
  split
  · exact (drainSubmit_maintainOrder _ st).trans
      (congrArg FlagView.maintainOrder (drainExec_frame s).2.2.2)
  · rfl

/-- No operation ever writes `maintainOrder` (the source has no setter for
it). -/
theorem maintainOrder_step (s : TP) (op : Op) :
    (step s op).1.maintainOrder = s.maintainOrder := by
  cases op with
  | addTask ts =>
    show (addTask s ts).1.maintainOrder = s.maintainOrder
    unfold addTask
    split
    · split
      · exact congrArg FlagView.maintainOrder (executorFn_frame _).2.2
      · unfold start
        split
        · rfl
        · exact congrArg FlagView.maintainOrder (executorFn_frame _).2.2
    · rfl
  | deleteTask seq =>
    show (deleteTask s seq).1.maintainOrder = s.maintainOrder
    unfold deleteTask
    split
    · exact congrArg FlagView.maintainOrder (executorFn_frame _).2.2
    · split
      · exact congrArg FlagView.maintainOrder (executorFn_frame _).2.2
      · split
        · exact congrArg FlagView.maintainOrder (executorFn_frame _).2.2
        · exact congrArg FlagView.maintainOrder (executorFn_frame _).2.2
  | start =>
    show (start s).1.maintainOrder = s.maintainOrder
    unfold start
    split
    · rfl
    · exact congrArg FlagView.maintainOrder (executorFn_frame _).2.2
  | stop => rfl
  | reset => rfl
  | setConcurrency n => rfl
  | pause => rfl
  | resume =>
    show (resume s).1.maintainOrder = s.maintainOrder
    unfold resume
    split
    · rfl
    · split
      · unfold start
        split
        · rfl
        · exact congrArg FlagView.maintainOrder (executorFn_frame _).2.2
      · exact congrArg FlagView.maintainOrder (executorFn_frame _).2.2
  | setImmediately b => rfl
  | setAutoSchedule b => rfl
  | settle pid out st =>
    show (settle s pid out st).1.maintainOrder = s.maintainOrder
    unfold settle
    split
    · rfl
    · exact (drainCheck_maintainOrder _ st).trans
        (congrArg FlagView.maintainOrder (settleBody_frame (dropPending s pid) _ _))

theorem goodEvs_run (ops : List Op) (s : TP) (hm : s.maintainOrder = true) :
    GoodEvs (run s ops).2 := by
  induction ops generalizing s with
  | nil => exact goodEvs_nil
  | cons op ops ih =>
    exact goodEvs_append (goodEvs_step s op hm) (ih _ ((maintainOrder_step s op).trans hm))

/-- Claim C2 (amended): with `maintainOrder = true`, every whole-array
delivery — the drain-time result-callback array and every submit chunk —
is sorted non-decreasingly by seq, and strictly ascending whenever its
seqs are distinct; per-completion arrays in immediate mode are the live
`resultPool` in settlement order and are not sorted. -/
theorem C2_amended (cfg : Cfg) (ops : List Op) (hm : cfg.maintainOrder = true) :
    ∀ e ∈ (run (init cfg) ops).2, ∀ r, drainPayload e = some r →
      SortedLe r ∧
        ((r.map Rec.seq).Nodup → List.Pairwise (fun a b => a.seq < b.seq) r) := by
  intro e he r hr
  have hs := goodEvs_run ops (init cfg) (by simp [init, hm]) e he r hr
  refine ⟨hs, fun hnd => ?_⟩
  have h2 : List.Pairwise (fun a b => a.seq ≠ b.seq) r := List.pairwise_map.1 hnd
  exact (hs.and h2).imp fun hab => lt_of_le_of_ne hab.1 hab.2

def cfgC2w : Cfg := ⟨[⟨[], false⟩, ⟨[], false⟩], true, 2, true, false, false, false⟩

def opsC2w : List Op :=
  [Op.start, Op.settle 1 (Outcome.success 5) false, Op.settle 0 (Outcome.success 9) false]

/-- Concrete instance of `C2_amended`: the drain delivery after two
out-of-order settlements is the seq-sorted array, strictly ascending. -/
theorem C2_witness :
    SortedLe [⟨0, 9, Status.success⟩, ⟨1, 5, Status.success⟩] ∧
      ((([(⟨0, 9, Status.success⟩ : Rec), ⟨1, 5, Status.success⟩].map Rec.seq).Nodup) →
        List.Pairwise (fun a b => a.seq < b.seq)
          [(⟨0, 9, Status.success⟩ : Rec), ⟨1, 5, Status.success⟩]) :=
  C2_amended cfgC2w opsC2w rfl
    (Ev.execCall [⟨0, 9, Status.success⟩, ⟨1, 5, Status.success⟩] none none false)
    (by decide) [⟨0, 9, Status.success⟩, ⟨1, 5, Status.success⟩] rfl

end TaskPool

namespace TaskPool

theorem withSeqs_length (i : Nat) (ts : List NewTask) : (withSeqs i ts).length = ts.length := by
  induction ts generalizing i with
  | nil => rfl
  | cons t ts ih => simp [withSeqs, ih]

/-- Claim C4 (amended): when `pause()` precedes `start()`, starting a
scheduler with N waiting tasks and an empty running pool invokes no task
body and emits no event at all; `getStatus().waiting` stays N and
`getStatus().running` stays 0 until `resume()`. -/
theorem C4_amended (cfg : Cfg) :
    (run (init cfg) [Op.pause, Op.start]).2 = [] ∧
      (getStatus (run (init cfg) [Op.pause, Op.start]).1).waiting = cfg.taskPool.length ∧
      (getStatus (run (init cfg) [Op.pause, Op.start]).1).running = 0 :=
  ⟨rfl, withSeqs_length 0 cfg.taskPool, rfl⟩

/-- Minimal heap model for the aliasing behaviour of `getStatus().results`
and `getAllTasks()`: the two pool fields hold references into a store of
arrays, array contents abstracted as lists of naturals.
`results: this.resultPool.slice()` allocates a fresh reference carrying a
copy of the contents, while `getAllTasks` executes `return this.allTasks`,
handing out the field's own reference. -/
structure ArrStore where
  heap : Nat → List Nat
  nextRef : Nat
  allTasksRef : Nat
  resultPoolRef : Nat

/-- The `results` component of `getStatus()`:
`this.resultPool.slice()` — fresh array, copied contents. -/
def getStatusResultsRef (s : ArrStore) : ArrStore × Nat :=
  ({ s with
      heap := fun r => if r = s.nextRef then s.heap s.resultPoolRef else s.heap r
      nextRef := s.nextRef + 1 },
    s.nextRef)

/-- Method `getAllTasks()`: `return this.allTasks` — the internal array
itself. -/
def getAllTasksRef (s : ArrStore) : ArrStore × Nat := (s, s.allTasksRef)

/-- An external consumer mutating the array it received
(`arr.push(x)`). -/
def extPush (s : ArrStore) (r : Nat) (x : Nat) : ArrStore :=
  { s with heap := fun u => if u = r then s.heap u ++ [x] else s.heap u }

/-- The scheduler's view of its own `allTasks` array. -/
def readAllTasks (s : ArrStore) : List Nat := s.heap s.allTasksRef

/-- The scheduler's view of its own `resultPool` array. -/
def readResultPool (s : ArrStore) : List Nat := s.heap s.resultPoolRef

def c9Store : ArrStore :=
  ⟨fun r => if r = 0 then [5] else if r = 1 then [9] else [], 2, 0, 1⟩

/-- Claim C9, counterexample: `getAllTasks()` returns the internal
`allTasks` array itself (no copy, no read-only view), so an external
`push` through the returned reference changes the scheduler's own
`allTasks`. -/
theorem C9_counterexample :
    readAllTasks (extPush (getAllTasksRef c9Store).1 (getAllTasksRef c9Store).2 99)
      ≠ readAllTasks c9Store := by decide

/-- Claim C9 (amended): `getStatus().results` is a defensive copy —
mutating the returned array leaves both internal pools unchanged — but
`getAllTasks()` aliases the internal `allTasks` array, so mutations
through it are visible to the scheduler. -/
theorem C9_amended (s : ArrStore) (x : Nat) (h1 : s.resultPoolRef < s.nextRef)
    (h2 : s.allTasksRef < s.nextRef) :
    readResultPool (extPush (getStatusResultsRef s).1 (getStatusResultsRef s).2 x)
        = readResultPool s ∧
      readAllTasks (extPush (getStatusResultsRef s).1 (getStatusResultsRef s).2 x)
        = readAllTasks s := by
  unfold readResultPool readAllTasks extPush getStatusResultsRef
  constructor
  · simp [Nat.ne_of_lt h1]
  · simp [Nat.ne_of_lt h2]

/-- Concrete instance of `C9_amended` on the two-array store. -/
theorem C9_witness :
    readResultPool (extPush (getStatusResultsRef c9Store).1 (getStatusResultsRef c9Store).2 7)
        = readResultPool c9Store ∧
      readAllTasks (extPush (getStatusResultsRef c9Store).1 (getStatusResultsRef c9Store).2 7)
        = readAllTasks c9Store :=
  C9_amended c9Store 7 (by decide) (by decide)

end TaskPool
